import Mathlib

set_option maxHeartbeats 1000000
set_option maxRecDepth 8192

/-
  Verification of the simpleftp FTP client (src/lib.rs) against its
  specification.  Rust string slices are modelled as `List Char`; byte
  positions are computed with the UTF-8 size of each character, so the
  byte-boundary behaviour of Rust string indexing (including its panics)
  is captured faithfully.  Formatted `String` values (addresses, error
  messages) are produced with an explicit decimal renderer.
-/

/-- Embeds `enum FtpError` from src/lib.rs.  Each variant carries the
formatted message the source builds with `format!`. -/
inductive FtpError where
  | LoginError (msg : String)
  | ConnectionError (msg : String)
  | FileError (msg : String)
  | CommandError (msg : String)
  | ResponseError (msg : String)
  deriving DecidableEq, Repr

deriving instance DecidableEq for Except

/-- Embeds `struct Response { code: usize, message: String }`. -/
structure Response where
  code : Nat
  message : String
  deriving DecidableEq, Repr

/- Reply-code constants, named as in src/lib.rs. -/

def SERVICE_READY : Nat := 220
def SERVICE_CLOSING : Nat := 221
def COMMAND_OK : Nat := 200
def ALREADY_OPEN : Nat := 125
def CLOSING_DATA_CONNECTION : Nat := 226
def PASSIVE_MODE : Nat := 227
def LOGGED_IN : Nat := 230
def NEED_PASSWORD : Nat := 331
def FILE_OK : Nat := 150
def FILE_ACTION_OK : Nat := 250
def FILE_ACTION_PENDING : Nat := 350

/-- The decimal digit character for `n < 10`. -/
def digitChar (n : Nat) : Char := Char.ofNat (48 + n)

/-- Decimal rendering with explicit fuel, so that the definition is
structurally recursive and evaluates inside the kernel.  The fuel is
always at least `n + 1`, which the recursion never exhausts. -/
def decimalAux : Nat → Nat → List Char
  | 0, _ => []
  | fuel + 1, n =>
    if n < 10 then [digitChar n]
    else decimalAux fuel (n / 10) ++ [digitChar (n % 10)]

/-- Decimal rendering of a natural number, as produced by Rust
`format!` for unsigned integers. -/
def decimal (n : Nat) : List Char := decimalAux (n + 1) n

/-- String form of `decimal`, the model of `format!` on a number. -/
def natStr (n : Nat) : String := String.mk (decimal n)

/-- Value of a list of decimal digit characters, most significant first. -/
def digitsVal (l : List Char) : Nat :=
  l.foldl (fun a c => a * 10 + (c.toNat - 48)) 0

/-- Embeds Rust `str::parse` for unsigned integer types before the width
check: an optional leading plus sign followed by one or more ASCII
decimal digits.  Returns the parsed value. -/
def parseNatFrom (s : List Char) : Option Nat :=
  let t := if s.head? = some '+' then s.tail else s
  if t.isEmpty then none
  else if t.all Char.isDigit then some (digitsVal t) else none

/-- Embeds `tok.parse::<u32>()`: parse and reject values outside u32. -/
def parseU32 (s : List Char) : Option Nat :=
  match parseNatFrom s with
  | some n => if n < 4294967296 then some n else none
  | none => none

/-- Embeds `response[0..3].parse::<usize>()`: parse and reject values
outside 64-bit usize. -/
def parseUsize (s : List Char) : Option Nat :=
  match parseNatFrom s with
  | some n => if n < 18446744073709551616 then some n else none
  | none => none

/-- Embeds Rust `str::trim` (drop leading and trailing whitespace). -/
def trimChars (l : List Char) : List Char :=
  ((l.dropWhile Char.isWhitespace).reverse.dropWhile Char.isWhitespace).reverse

/-- Embeds Rust `str::split(sep)`: cut at every separator occurrence,
keeping empty pieces.  Never returns the empty list. -/
def splitOnChar (sep : Char) : List Char → List (List Char)
  | [] => [[]]
  | c :: cs =>
    if c = sep then [] :: splitOnChar sep cs
    else
      match splitOnChar sep cs with
      | [] => [[c]]
      | t :: ts => (c :: t) :: ts

/-- UTF-8 byte length of a character list, the model of Rust `str::len`. -/
def utf8Len (l : List Char) : Nat := (l.map Char.utf8Size).sum

/-- Characters of the first `k` UTF-8 bytes; `none` when `k` is not a
character boundary (where Rust slicing `s[0..k]` panics) or exceeds the
length. -/
def byteTake : List Char → Nat → Option (List Char)
  | _, 0 => some []
  | [], _ + 1 => none
  | c :: cs, k + 1 =>
    if c.utf8Size ≤ k + 1 then (byteTake cs (k + 1 - c.utf8Size)).map (c :: ·)
    else none

/-- Characters after the first `k` UTF-8 bytes; `none` when `k` is not a
character boundary (where Rust slicing `s[k..]` panics). -/
def byteDrop : List Char → Nat → Option (List Char)
  | s, 0 => some s
  | [], _ + 1 => none
  | c :: cs, k + 1 =>
    if c.utf8Size ≤ k + 1 then byteDrop cs (k + 1 - c.utf8Size)
    else none

/-- Embeds `BufRead::read_line` on a character stream: the first
component is the line read (up to and including the first newline, or
the whole rest at end of input), the second is the remaining stream. -/
def readLine : List Char → List Char × List Char
  | [] => ([], [])
  | c :: cs =>
    if c = '\n' then ([c], cs)
    else
      let p := readLine cs
      (c :: p.1, p.2)

/-- Outcome of one `parse_response` call.  `panic` marks a Rust panic
(string slicing off a character boundary), `hang` marks the
non-terminating multi-line loop at end of input, `fail` and `ok` carry
the remaining control stream. -/
inductive ParseOutcome where
  | panic
  | fail (e : FtpError) (rest : List Char)
  | ok (r : Response) (rest : List Char)
  | hang
  deriving DecidableEq, Repr

/-- Embeds the multi-line loop of `parse_response`: repeatedly read a
line, append it to the accumulated response, and stop once the line
read starts with the first three bytes of the first line.  At end of
input `read_line` keeps returning an empty line, which never matches,
so the source loops forever: modelled as `none`.  The recursion is
structural on a fuel argument initialised to the stream length; each
iteration consumes at least one character, so the fuel-exhausted branch
on a non-empty stream is never reached. -/
def multilineAux (code3 : List Char) : Nat → List Char → List Char →
    Option (List Char × List Char)
  | _, _, [] => none
  | 0, _, _ :: _ => none
  | fuel + 1, acc, c :: cs =>
    let line := (readLine (c :: cs)).1
    let rest := (readLine (c :: cs)).2
    let acc2 := acc ++ line
    if code3.isPrefixOf line then some (acc2, rest)
    else multilineAux code3 fuel acc2 rest

def multiline (code3 acc stream : List Char) : Option (List Char × List Char) :=
  multilineAux code3 stream.length acc stream

/-- Embeds `FtpClient::parse_response` (src/lib.rs lines 776 to 810) on
a character stream standing for the control connection: read one line;
fail when fewer than five bytes were read; parse the first three bytes
as the code; when the first four bytes contain a dash, run the
multi-line loop; the message is everything after the first three bytes
of the accumulated response. -/
def parse_response (stream : List Char) : ParseOutcome :=
  let response := (readLine stream).1
  let rest := (readLine stream).2
  if utf8Len response < 5 then
    .fail (.ResponseError ("Invalid response code form server: " ++ String.mk response)) rest
  else
    match byteTake response 3 with
    | none => .panic
    | some first3 =>
      match parseUsize first3 with
      | none =>
        .fail (.ResponseError ("Invalid response code form server: " ++ String.mk response)) rest
      | some code =>
        match byteTake response 4 with
        | none => .panic
        | some first4 =>
          if first4.contains '-' then
            match multiline first3 response rest with
            | none => .hang
            | some pr =>
              match byteDrop pr.1 3 with
              | none => .panic
              | some msg => .ok ⟨code, String.mk msg⟩ pr.2
          else
            match byteDrop response 3 with
            | none => .panic
            | some msg => .ok ⟨code, String.mk msg⟩ rest

/-- The code points of the Unicode general categories Nd, Nl and No
(decimal, letter and other numbers), as inclusive ranges.  This is the
character class Rust `char::is_numeric` tests (Unicode character
database version 14.0.0). -/
def numericRanges : List (Nat × Nat) :=
  [(48, 57), (178, 179), (185, 185), (188, 190), (1632, 1641), (1776, 1785), (1984, 1993), 
   (2406, 2415), (2534, 2543), (2548, 2553), (2662, 2671), (2790, 2799), (2918, 2927), 
   (2930, 2935), (3046, 3058), (3174, 3183), (3192, 3198), (3302, 3311), (3416, 3422), 
   (3430, 3448), (3558, 3567), (3664, 3673), (3792, 3801), (3872, 3891), (4160, 4169), 
   (4240, 4249), (4969, 4988), (5870, 5872), (6112, 6121), (6128, 6137), (6160, 6169), 
   (6470, 6479), (6608, 6618), (6784, 6793), (6800, 6809), (6992, 7001), (7088, 7097), 
   (7232, 7241), (7248, 7257), (8304, 8304), (8308, 8313), (8320, 8329), (8528, 8578), 
   (8581, 8585), (9312, 9371), (9450, 9471), (10102, 10131), (11517, 11517), (12295, 12295), 
   (12321, 12329), (12344, 12346), (12690, 12693), (12832, 12841), (12872, 12879), 
   (12881, 12895), (12928, 12937), (12977, 12991), (42528, 42537), (42726, 42735), 
   (43056, 43061), (43216, 43225), (43264, 43273), (43472, 43481), (43504, 43513), 
   (43600, 43609), (44016, 44025), (65296, 65305), (65799, 65843), (65856, 65912), 
   (65930, 65931), (66273, 66299), (66336, 66339), (66369, 66369), (66378, 66378), 
   (66513, 66517), (66720, 66729), (67672, 67679), (67705, 67711), (67751, 67759), 
   (67835, 67839), (67862, 67867), (68028, 68029), (68032, 68047), (68050, 68095), 
   (68160, 68168), (68221, 68222), (68253, 68255), (68331, 68335), (68440, 68447), 
   (68472, 68479), (68521, 68527), (68858, 68863), (68912, 68921), (69216, 69246), 
   (69405, 69414), (69457, 69460), (69573, 69579), (69714, 69743), (69872, 69881), 
   (69942, 69951), (70096, 70105), (70113, 70132), (70384, 70393), (70736, 70745), 
   (70864, 70873), (71248, 71257), (71360, 71369), (71472, 71483), (71904, 71922), 
   (72016, 72025), (72784, 72812), (73040, 73049), (73120, 73129), (73664, 73684), 
   (74752, 74862), (92768, 92777), (92864, 92873), (93008, 93017), (93019, 93025), 
   (93824, 93846), (119520, 119539), (119648, 119672), (120782, 120831), (123200, 123209), 
   (123632, 123641), (125127, 125135), (125264, 125273), (126065, 126123), (126125, 126127), 
   (126129, 126132), (126209, 126253), (126255, 126269), (127232, 127244), (130032, 130041)]

/-- Embeds Rust `char::is_numeric`: membership of the Unicode number
categories Nd, Nl or No. -/
def isNumericChar (c : Char) : Bool :=
  numericRanges.any (fun r => r.1 ≤ c.toNat && c.toNat ≤ r.2)

/-- The numeric tokens collected by `FtpClient::extract_pasv_address`
(src/lib.rs lines 813 to 833): keep only commas and Unicode numeric
characters, split on commas, trim each token, keep those that parse as
u32.  A token containing a non-ASCII numeric character fails the u32
parse and is dropped whole. -/
def pasvNumbers (response : List Char) : List Nat :=
  let ipinfo := response.filter (fun c => c = ',' || isNumericChar c)
  let tokens := (splitOnChar ',' ipinfo).map trimChars
  tokens.filterMap parseU32

/-- Embeds `FtpClient::extract_pasv_address`: fewer than six numeric
tokens is a ResponseError; otherwise the address is built from the
first four tokens and the port from the fifth and sixth
(`upper * 256 + lower`, reduced modulo 2 to the 32 as u32 release-mode
arithmetic).  The source indexes `numbers[0]` to `numbers[5]` after the
length check; the match mirrors that, and its other arm is unreachable
because the guard already ensured at least six tokens. -/
def extract_pasv_address (response : List Char) : Except FtpError String :=
  let numbers := pasvNumbers response
  let format_error :=
    FtpError.ResponseError ("Invalid PASV response from server: " ++ String.mk response)
  if numbers.length < 6 then
    .error format_error
  else
    match numbers with
    | n0 :: n1 :: n2 :: n3 :: n4 :: n5 :: _ =>
      let port_lower := n5
      let port_upper := n4
      let full_port := (port_upper * 256 + port_lower) % 4294967296
      .ok (natStr n0 ++ "." ++ natStr n1 ++ "." ++ natStr n2 ++ "." ++ natStr n3 ++
        ":" ++ natStr full_port)
    | _ => .error format_error

namespace FtpClient

/-- One observable client action. -/
inductive FtpAction where
  | cmdWrite (line : String)
  | dataCopy
  | dataShutdown
  deriving DecidableEq, Repr

/-- The mock interaction state: pending scripted replies, the data
connection content, and the trace of actions performed so far. -/
structure MockState where
  replies : List Response
  dataLines : List (Option String)
  trace : List FtpAction
  deriving DecidableEq, Repr

/-- Append an action to the trace. -/
def logAction (a : FtpAction) (st : MockState) : MockState :=
  { st with trace := st.trace ++ [a] }

/-- One `parse_response` call at the script level: pop the next scripted
reply.  An exhausted script behaves like end of input, where the source
reads an empty line and fails the length check. -/
def read_reply (st : MockState) : Except FtpError Response × MockState :=
  match st.replies with
  | [] => (.error (.ResponseError "Invalid response code form server: "), st)
  | r :: rs => (.ok r, { st with replies := rs })

/-- Embeds `FtpClient::write_cmd`: write `command` followed by CRLF to
the control socket, then parse one reply. -/
def write_cmd (command : String) (st : MockState) :
    Except FtpError Response × MockState :=
  read_reply (logAction (.cmdWrite (command ++ "\r\n")) st)

/-- Embeds `FtpClient::login` (src/lib.rs lines 200 to 221): send USER,
require code 331 or 230, then send PASS unconditionally and require
code 230. -/
def login (username password : String) (st : MockState) :
    Except FtpError Unit × MockState :=
  match write_cmd ("USER " ++ username) st with
  | (.error e, st) => (.error e, st)
  | (.ok response, st) =>
    if response.code ≠ NEED_PASSWORD ∧ response.code ≠ LOGGED_IN then
      (.error (.LoginError ("Could not authenticate: " ++ natStr response.code)), st)
    else
      match write_cmd ("PASS " ++ password) st with
      | (.error e, st) => (.error e, st)
      | (.ok response, st) =>
        if response.code ≠ LOGGED_IN then
          (.error (.LoginError ("Invalid username/password combination: " ++
            natStr response.code)), st)
        else (.ok (), st)

/-- Embeds `FtpClient::pasv` (src/lib.rs lines 490 to 506): send PASV,
require code 227 or 125, decode the data-connection address from the
reply message.  Opening the TCP connection is modelled as succeeding;
the returned string is the address connected to. -/
def pasv (st : MockState) : Except FtpError String × MockState :=
  match write_cmd "PASV" st with
  | (.error e, st) => (.error e, st)
  | (.ok response, st) =>
    if response.code ≠ PASSIVE_MODE ∧ response.code ≠ ALREADY_OPEN then
      (.error (.ResponseError ("Invalid response code from server: " ++
        natStr response.code)), st)
    else
      match extract_pasv_address response.message.data with
      | .error e => (.error e, st)
      | .ok address => (.ok address, st)

/-- Embeds `FtpClient::get` (src/lib.rs lines 271 to 286): PASV, send
RETR, require code 150 or 125, copy the data connection into the sink,
then require a final code 226 reply. -/
def get (file : String) (st : MockState) : Except FtpError Unit × MockState :=
  match pasv st with
  | (.error e, st) => (.error e, st)
  | (.ok _stream, st) =>
    match write_cmd ("RETR " ++ file) st with
    | (.error e, st) => (.error e, st)
    | (.ok response, st) =>
      if response.code ≠ FILE_OK ∧ response.code ≠ ALREADY_OPEN then
        (.error (.CommandError "Could not process file retrieve"), st)
      else
        let st := logAction .dataCopy st
        match read_reply st with
        | (.error e, st) => (.error e, st)
        | (.ok final, st) =>
          if final.code = CLOSING_DATA_CONNECTION then (.ok (), st)
          else (.error (.ConnectionError "Error closing connection"), st)

/-- Embeds `FtpClient::store_cmd` (src/lib.rs lines 376 to 406): PASV,
send STOU or STOR, require exactly code 150, copy the source into the
data connection, shut the data connection down, then require a final
code 226 reply; on success return the STOR reply message. -/
def store_cmd (file : String) (unique : Bool) (st : MockState) :
    Except FtpError String × MockState :=
  match pasv st with
  | (.error e, st) => (.error e, st)
  | (.ok _stream, st) =>
    match (if unique then write_cmd ("STOU " ++ file) st
           else write_cmd ("STOR " ++ file) st) with
    | (.error e, st) => (.error e, st)
    | (.ok response, st) =>
      if response.code ≠ FILE_OK then
        (.error (.CommandError "Could not process file STOR"), st)
      else
        let st := logAction .dataCopy st
        let st := logAction .dataShutdown st
        match read_reply st with
        | (.error e, st) => (.error e, st)
        | (.ok final, st) =>
          if final.code = CLOSING_DATA_CONNECTION then (.ok response.message, st)
          else (.error (.ConnectionError "Error closing connection"), st)

/-- Embeds `FtpClient::put`: `store_cmd` with `unique = false`,
discarding the returned message. -/
def put (file : String) (st : MockState) : Except FtpError Unit × MockState :=
  match store_cmd file false st with
  | (.error e, st) => (.error e, st)
  | (.ok _, st) => (.ok (), st)

/-- Embeds `FtpClient::put_unique`: `store_cmd` on an empty file name
with `unique = true`. -/
def put_unique (st : MockState) : Except FtpError String × MockState :=
  store_cmd "" true st

/-- Embeds `FtpClient::append`: `store_cmd` with `unique = false`,
discarding the returned message. -/
def append (file : String) (st : MockState) : Except FtpError Unit × MockState :=
  match store_cmd file false st with
  | (.error e, st) => (.error e, st)
  | (.ok _, st) => (.ok (), st)

/-- Embeds `FtpClient::list_cmd` (src/lib.rs lines 537 to 561): PASV,
send NLST or LIST, require code 200, 125 or 150, read the data
connection line by line keeping only the lines whose read succeeded,
then require a final code 226 reply. -/
def list_cmd (dir : String) (named : Bool) (st : MockState) :
    Except FtpError (List String) × MockState :=
  match pasv st with
  | (.error e, st) => (.error e, st)
  | (.ok _datacon, st) =>
    match (if named then write_cmd ("NLST " ++ dir) st
           else write_cmd ("LIST " ++ dir) st) with
    | (.error e, st) => (.error e, st)
    | (.ok response, st) =>
      if response.code ≠ COMMAND_OK ∧ response.code ≠ ALREADY_OPEN ∧
          response.code ≠ FILE_OK then
        (.error (.CommandError response.message), st)
      else
        let file_list := st.dataLines.filterMap id
        let st := logAction .dataCopy st
        match read_reply st with
        | (.error e, st) => (.error e, st)
        | (.ok final, st) =>
          if final.code = CLOSING_DATA_CONNECTION then (.ok file_list, st)
          else (.error (.ConnectionError "Error closing connection"), st)

/-- Embeds `FtpClient::list`: `list_cmd` with `named = false`. -/
def list (dir : String) (st : MockState) :
    Except FtpError (List String) × MockState :=
  list_cmd dir false st

/-- Embeds `FtpClient::name_list`: `list_cmd` with `named = true`. -/
def name_list (dir : String) (st : MockState) :
    Except FtpError (List String) × MockState :=
  list_cmd dir true st

/-- Embeds `FtpClient::rename` (src/lib.rs lines 442 to 459): send RNFR,
require code 350, then send RNTO and require code 250. -/
def rename (f t : String) (st : MockState) : Except FtpError Unit × MockState :=
  match write_cmd ("RNFR " ++ f) st with
  | (.error e, st) => (.error e, st)
  | (.ok response, st) =>
    if response.code ≠ FILE_ACTION_PENDING then
      (.error (.CommandError ("Could not rename file: " ++ natStr response.code)), st)
    else
      match write_cmd ("RNTO " ++ t) st with
      | (.error e, st) => (.error e, st)
      | (.ok response, st) =>
        if response.code ≠ FILE_ACTION_OK then
          (.error (.CommandError ("Could not rename file: " ++ natStr response.code)), st)
        else (.ok (), st)

/-- A concrete passive-mode reply used by the transfer-choreography
claims: code 227 with the message of the reply line
227 Entering Passive Mode (127,0,0,1,4,1). -/
def pasvReply : Response := ⟨227, " Entering Passive Mode (127,0,0,1,4,1).\r\n"⟩

/-- The control-channel script of one transfer: a successful PASV
reply, the immediate reply to the transfer verb (code `c`), and the
final reply (code `k`). -/
def transferScript (c : Nat) (m : String) (k : Nat) (mf : String)
    (dl : List (Option String)) : MockState :=
  ⟨[pasvReply, ⟨c, m⟩, ⟨k, mf⟩], dl, []⟩

end FtpClient

/-
  Spec-side definitions, used to state the claims that describe the
  decoder in the words of the specification (maximal runs of decimal
  digits) so they can be compared with the behaviour embedded from the
  source.
-/

/-- Helper for `digitRuns`: the accumulator holds the reversed current
run of digits, when inside one. -/
def digitRunsAux : Option (List Char) → List Char → List (List Char)
  | none, [] => []
  | some r, [] => [r.reverse]
  | none, c :: cs =>
    if c.isDigit then digitRunsAux (some [c]) cs else digitRunsAux none cs
  | some r, c :: cs =>
    if c.isDigit then digitRunsAux (some (c :: r)) cs
    else r.reverse :: digitRunsAux none cs

/-- Following the words of the spec: the maximal runs of decimal digits
of a text, in order of appearance. -/
def digitRuns (s : List Char) : List (List Char) := digitRunsAux none s

/-- Following the words of the spec: the numeric tokens read as the
maximal runs of decimal digits, in order of appearance. -/
def specTokens (s : List Char) : List Nat := (digitRuns s).map digitsVal

/-- Following the words of the spec: the address built from the first
six numeric tokens, `none` when fewer than six are present. -/
def addressOfTokens (ns : List Nat) : Option String :=
  match ns with
  | n0 :: n1 :: n2 :: n3 :: n4 :: n5 :: _ =>
    some (natStr n0 ++ "." ++ natStr n1 ++ "." ++ natStr n2 ++ "." ++ natStr n3 ++
      ":" ++ natStr (n4 * 256 + n5))
  | _ => none

/-- The numeric tokens obtained by splitting the original message at
commas and concatenating, within each comma-delimited segment, the
Unicode numeric characters it contains; a segment is kept exactly when
that concatenation parses as u32, so a segment corrupted by a non-ASCII
numeric character is dropped whole.  The amended description of the
tokenizer of `extract_pasv_address`. -/
def mergedCommaTokens (s : List Char) : List Nat :=
  ((splitOnChar ',' s).map (fun seg => seg.filter isNumericChar)).filterMap parseU32

/-- The six decimal numbers of a PASV reply separated by commas,
followed by the closing parenthesis, the period and CRLF. -/
def pasvDigitsPart (a b c d p1 p2 : Nat) : List Char :=
  decimal a ++ [','] ++ decimal b ++ [','] ++ decimal c ++ [','] ++ decimal d ++ [','] ++
  decimal p1 ++ [','] ++ decimal p2 ++ [')', '.', '\r', '\n']

/-- The text \x7b Entering Passive Mode (\x7d between the reply code and
the numbers, as an explicit character list. -/
def pasvTextPrefix : List Char :=
  [' ', 'E', 'n', 't', 'e', 'r', 'i', 'n', 'g', ' ', 'P', 'a', 's', 's', 'i', 'v', 'e', ' ',
   'M', 'o', 'd', 'e', ' ', '(']

/-- The message part of the PASV reply line: everything after the
3-digit code 227. -/
def pasvMessageBody (a b c d p1 p2 : Nat) : List Char :=
  pasvTextPrefix ++ pasvDigitsPart a b c d p1 p2

/-- The full PASV reply line
227 Entering Passive Mode (a,b,c,d,p1,p2). terminated by CRLF. -/
def pasvReplyLine (a b c d p1 p2 : Nat) : List Char :=
  '2' :: '2' :: '7' :: pasvMessageBody a b c d p1 p2

/-- The address text a.b.c.d:port in the format the source builds. -/
def pasvAddr (a b c d port : Nat) : String :=
  natStr a ++ "." ++ natStr b ++ "." ++ natStr c ++ "." ++ natStr d ++ ":" ++ natStr port

/- Helper lemmas about the embedded primitives. -/

theorem readLine_append_newline (u r : List Char) (h : '\n' ∉ u) :
    readLine (u ++ '\n' :: r) = (u ++ ['\n'], r) := by
  induction u with
  | nil => simp [readLine]
  | cons c cs ih =>
    have hc : c ≠ '\n' := fun hc => h (by simp [hc])
    have h' : '\n' ∉ cs := fun hm => h (List.mem_cons_of_mem _ hm)
    simp [readLine, hc, ih h']

theorem byteTake_ascii_cons (c : Char) (cs : List Char) (k : Nat) (h : c.utf8Size = 1) :
    byteTake (c :: cs) (k + 1) = (byteTake cs k).map (c :: ·) := by
  simp [byteTake, h]

theorem byteDrop_ascii_cons (c : Char) (cs : List Char) (k : Nat) (h : c.utf8Size = 1) :
    byteDrop (c :: cs) (k + 1) = byteDrop cs k := by
  simp [byteDrop, h]

theorem byteTake_append (a b t : List Char) (k : Nat) (h : byteTake a k = some t) :
    byteTake (a ++ b) k = some t := by
  induction a generalizing k t with
  | nil =>
    cases k with
    | zero => simpa [byteTake] using h
    | succ k => simp [byteTake] at h
  | cons c cs ih =>
    cases k with
    | zero => simpa [byteTake] using h
    | succ k =>
      simp only [List.cons_append, byteTake] at h ⊢
      by_cases hsz : c.utf8Size ≤ k + 1
      · simp only [if_pos hsz] at h ⊢
        cases ht : byteTake cs (k + 1 - c.utf8Size) with
        | none => simp [ht] at h
        | some t' =>
          simp only [ht, Option.map_some'] at h
          simp [ih _ _ ht, ← h]
      · simp [if_neg hsz] at h

theorem byteDrop_append (a b r : List Char) (k : Nat) (h : byteDrop a k = some r) :
    byteDrop (a ++ b) k = some (r ++ b) := by
  induction a generalizing k r with
  | nil =>
    cases k with
    | zero =>
      simp [byteDrop] at h
      simp [byteDrop, ← h]
    | succ k => simp [byteDrop] at h
  | cons c cs ih =>
    cases k with
    | zero =>
      simp [byteDrop] at h
      simp [byteDrop, ← h]
    | succ k =>
      simp only [List.cons_append, byteDrop] at h ⊢
      by_cases hsz : c.utf8Size ≤ k + 1
      · simp only [if_pos hsz] at h ⊢
        exact ih _ _ h
      · simp [if_neg hsz] at h

theorem splitOnChar_cons_head (sep : Char) (l : List Char) :
    ∃ t ts, splitOnChar sep l = t :: ts := by
  cases l with
  | nil => exact ⟨[], [], rfl⟩
  | cons c cs =>
    by_cases h : c = sep
    · exact ⟨[], splitOnChar sep cs, by simp [splitOnChar, h]⟩
    · rcases hs : splitOnChar sep cs with _ | ⟨t, ts⟩
      · exact ⟨[c], [], by simp [splitOnChar, h, hs]⟩
      · exact ⟨c :: t, ts, by simp [splitOnChar, h, hs]⟩

theorem splitOnChar_not_mem (sep : Char) (u : List Char) (h : sep ∉ u) :
    splitOnChar sep u = [u] := by
  induction u with
  | nil => rfl
  | cons c cs ih =>
    have hc : c ≠ sep := fun hc => h (by simp [hc])
    have h' : sep ∉ cs := fun hm => h (List.mem_cons_of_mem _ hm)
    simp [splitOnChar, hc, ih h']

theorem splitOnChar_append_sep (sep : Char) (u r : List Char) (h : sep ∉ u) :
    splitOnChar sep (u ++ sep :: r) = u :: splitOnChar sep r := by
  induction u with
  | nil => simp [splitOnChar]
  | cons c cs ih =>
    have hc : c ≠ sep := fun hc => h (by simp [hc])
    have h' : sep ∉ cs := fun hm => h (List.mem_cons_of_mem _ hm)
    obtain ⟨t, ts, hr⟩ := splitOnChar_cons_head sep r
    simp [splitOnChar, hc, ih h']

theorem splitOnChar_append_left (sep : Char) (a b : List Char) (h : sep ∉ a) :
    ∃ u vs, splitOnChar sep b = u :: vs ∧
      splitOnChar sep (a ++ b) = (a ++ u) :: vs := by
  obtain ⟨u, vs, hb⟩ := splitOnChar_cons_head sep b
  refine ⟨u, vs, hb, ?_⟩
  induction a with
  | nil => simpa using hb
  | cons c cs ih =>
    have hc : c ≠ sep := fun hc => h (by simp [hc])
    have h' : sep ∉ cs := fun hm => h (List.mem_cons_of_mem _ hm)
    simp [splitOnChar, hc, ih h']

theorem digitChar_isDigit (n : Nat) (h : n < 10) : (digitChar n).isDigit = true := by
  interval_cases n <;> decide

theorem digitChar_toNat (n : Nat) (h : n < 10) : (digitChar n).toNat = 48 + n := by
  interval_cases n <;> decide

theorem decimalAux_all_digit (fuel : Nat) :
    ∀ n, n < fuel → ∀ c ∈ decimalAux fuel n, c.isDigit = true := by
  induction fuel with
  | zero => intro n hn; omega
  | succ fuel ih =>
    intro n _hn c hc
    rw [decimalAux] at hc
    by_cases h : n < 10
    · rw [if_pos h] at hc
      simp at hc
      subst hc
      exact digitChar_isDigit n h
    · rw [if_neg h] at hc
      rcases List.mem_append.mp hc with h1 | h1
      · exact ih (n / 10) (by omega) c h1
      · simp at h1
        subst h1
        exact digitChar_isDigit _ (Nat.mod_lt _ (by omega))

theorem decimal_all_digit (n : Nat) : ∀ c ∈ decimal n, c.isDigit = true :=
  decimalAux_all_digit (n + 1) n (Nat.lt_succ_self n)

theorem decimal_ne_nil (n : Nat) : decimal n ≠ [] := by
  unfold decimal decimalAux
  split <;> simp

theorem digitsVal_append_digit (l : List Char) (d : Char) :
    digitsVal (l ++ [d]) = 10 * digitsVal l + (d.toNat - 48) := by
  simp [digitsVal, List.foldl_append]
  omega

theorem decimalAux_digitsVal (fuel : Nat) :
    ∀ n, n < fuel → digitsVal (decimalAux fuel n) = n := by
  induction fuel with
  | zero => intro n hn; omega
  | succ fuel ih =>
    intro n _hn
    rw [decimalAux]
    by_cases h : n < 10
    · rw [if_pos h]
      simp [digitsVal, digitChar_toNat n h]
    · rw [if_neg h]
      rw [digitsVal_append_digit, ih (n / 10) (by omega),
        digitChar_toNat (n % 10) (Nat.mod_lt _ (by omega))]
      omega

theorem digitsVal_decimal (n : Nat) : digitsVal (decimal n) = n :=
  decimalAux_digitsVal (n + 1) n (Nat.lt_succ_self n)

theorem isDigit_not_ws (c : Char) (h : c.isDigit = true) : c.isWhitespace = false := by
  by_contra hw
  have hw' : c.isWhitespace = true := by
    cases hb : c.isWhitespace
    · exact absurd hb hw
    · rfl
  simp only [Char.isWhitespace, Bool.or_eq_true, decide_eq_true_eq] at hw'
  rcases hw' with ((h1 | h1) | h1) | h1 <;> subst h1 <;> simp at h

theorem isNumericChar_not_ws (c : Char) (h : isNumericChar c = true) :
    c.isWhitespace = false := by
  by_contra hw
  have hw2 : c.isWhitespace = true := by
    cases hb : c.isWhitespace
    · exact absurd hb hw
    · rfl
  simp only [Char.isWhitespace, Bool.or_eq_true, decide_eq_true_eq] at hw2
  rcases hw2 with ((h1 | h1) | h1) | h1 <;> subst h1 <;> exact absurd h (by decide)

theorem isDigit_isNumeric (c : Char) (h : c.isDigit = true) :
    isNumericChar c = true := by
  have hb : 48 ≤ c.toNat ∧ c.toNat ≤ 57 := by
    simp [Char.isDigit] at h
    exact ⟨h.1, h.2⟩
  unfold isNumericChar
  refine List.any_eq_true.mpr ⟨(48, 57), by decide, ?_⟩
  simp [hb.1, hb.2]

theorem dropWhile_eq_self_of_not (p : Char → Bool) (l : List Char)
    (h : ∀ c ∈ l, p c = false) : l.dropWhile p = l := by
  cases l with
  | nil => rfl
  | cons c cs => simp [List.dropWhile_cons, h c (List.mem_cons_self _ _)]

theorem trimChars_no_ws (l : List Char) (h : ∀ c ∈ l, c.isWhitespace = false) :
    trimChars l = l := by
  unfold trimChars
  rw [dropWhile_eq_self_of_not _ _ h,
    dropWhile_eq_self_of_not _ _ (fun c hc => h c (List.mem_reverse.mp hc)),
    List.reverse_reverse]

theorem trimChars_all_digit (l : List Char) (h : ∀ c ∈ l, c.isDigit = true) :
    trimChars l = l :=
  trimChars_no_ws l (fun c hc => isDigit_not_ws c (h c hc))

theorem parseNatFrom_all_digit (l : List Char) (hne : l ≠ [])
    (h : ∀ c ∈ l, c.isDigit = true) : parseNatFrom l = some (digitsVal l) := by
  have hh : ¬ l.head? = some '+' := by
    cases l with
    | nil => simp
    | cons c cs =>
      simp only [List.head?, Option.some.injEq]
      intro hc
      have := h c (List.mem_cons_self _ _)
      rw [hc] at this
      simp at this
  have he : l.isEmpty = false := by
    cases l with
    | nil => exact absurd rfl hne
    | cons c cs => rfl
  simp only [parseNatFrom, if_neg hh, he, Bool.false_eq_true, if_false]
  rw [List.all_eq_true.mpr fun c hc => h c hc]
  simp

theorem parseNatFrom_digit_mem (s : List Char) (n : Nat)
    (h : parseNatFrom s = some n) : ∃ c ∈ s, c.isDigit = true := by
  simp only [parseNatFrom] at h
  set t := if s.head? = some '+' then s.tail else s with ht
  have hsub : ∀ x ∈ t, x ∈ s := by
    rw [ht]
    split
    · exact fun x hx => List.mem_of_mem_tail hx
    · exact fun x hx => hx
  by_cases he : t.isEmpty = true
  · rw [if_pos he] at h
    simp at h
  · rw [if_neg he] at h
    by_cases ha : t.all Char.isDigit = true
    · have hne : t ≠ [] := by
        intro h0
        rw [h0] at he
        exact he rfl
      obtain ⟨x, hx⟩ := List.exists_mem_of_ne_nil _ hne
      exact ⟨x, hsub x hx, List.all_eq_true.mp ha x hx⟩
    · rw [if_neg ha] at h
      simp at h

theorem parseU32_decimal (n : Nat) (h : n < 4294967296) :
    parseU32 (decimal n) = some n := by
  unfold parseU32
  rw [parseNatFrom_all_digit _ (decimal_ne_nil n) (decimal_all_digit n), digitsVal_decimal]
  simp [h]

theorem filter_decimal_keep (n : Nat) :
    (decimal n).filter (fun c => c = ',' || isNumericChar c) = decimal n :=
  List.filter_eq_self.mpr (fun c hcm => by
    simp [isDigit_isNumeric c (decimal_all_digit n c hcm)])

theorem splitOnChar_filter_comma (s : List Char) :
    splitOnChar ',' (s.filter (fun c => c = ',' || isNumericChar c)) =
      (splitOnChar ',' s).map (fun seg => seg.filter isNumericChar) := by
  induction s with
  | nil => rfl
  | cons c cs ih =>
    obtain ⟨t, ts, hcs⟩ := splitOnChar_cons_head ',' cs
    by_cases hc : c = ','
    · subst hc
      simp only [List.filter_cons]
      norm_num
      simp only [splitOnChar, if_pos rfl, ih, List.map_cons]
      simp
    · by_cases hd : isNumericChar c = true
      · have hkeep : (c = ',' || isNumericChar c) = true := by simp [hd]
        simp only [List.filter_cons, hkeep, if_true]
        simp only [splitOnChar, if_neg hc]
        rw [ih, hcs]
        simp [List.filter_cons, hd]
      · have hd2 : isNumericChar c = false := by simpa using hd
        have hkeep : (c = ',' || isNumericChar c) = false := by simp [hc, hd2]
        simp only [List.filter_cons, hkeep, Bool.false_eq_true, if_false]
        rw [ih]
        simp only [splitOnChar, if_neg hc]
        rw [hcs]
        simp [List.filter_cons, hd2]

theorem pasvNumbers_eq_merged (s : List Char) : pasvNumbers s = mergedCommaTokens s := by
  simp only [pasvNumbers, mergedCommaTokens]
  rw [splitOnChar_filter_comma, List.map_map]
  congr 1
  apply List.map_congr_left
  intro seg _hseg
  simp only [Function.comp_apply]
  exact trimChars_no_ws _ (fun c hc => isNumericChar_not_ws c (List.mem_filter.mp hc).2)

/-- The filter keeps the non-ASCII Arabic-Indic digit (U+0663), so the
token it lands in fails the u32 parse and is dropped whole, taking its
ASCII digit with it, exactly as the source behaves. -/
theorem pasvNumbers_drops_corrupted_token :
    pasvNumbers ("1٣,2,3,4,5,6,7".data) = [2, 3, 4, 5, 6, 7] := by decide

theorem extract_drops_corrupted_token :
    extract_pasv_address ("1٣,2,3,4,5,6,7".data) = .ok "2.3.4.5:1543" := by decide

theorem digitRunsAux_some (s : List Char) : ∀ r,
    digitRunsAux (some r) s =
      (r.reverse ++ s.takeWhile Char.isDigit) :: digitRuns (s.dropWhile Char.isDigit) := by
  induction s with
  | nil => intro r; simp [digitRunsAux, digitRuns, digitRunsAux]
  | cons c cs ih =>
    intro r
    by_cases h : c.isDigit = true
    · simp only [digitRunsAux, h, if_true, ih (c :: r), List.takeWhile_cons, List.dropWhile_cons]
      simp [h]
    · have h2 : c.isDigit = false := by simpa using h
      simp only [digitRunsAux, h2, Bool.false_eq_true, if_false, List.takeWhile_cons,
        List.dropWhile_cons]
      simp only [digitRuns, digitRunsAux, h2, Bool.false_eq_true, if_false]
      simp

theorem digitRuns_cons_digit (c : Char) (cs : List Char) (h : c.isDigit = true) :
    digitRuns (c :: cs) =
      (c :: cs.takeWhile Char.isDigit) :: digitRuns (cs.dropWhile Char.isDigit) := by
  simp [digitRuns, digitRunsAux, h, digitRunsAux_some]

theorem digitRuns_cons_not (c : Char) (cs : List Char) (h : c.isDigit = false) :
    digitRuns (c :: cs) = digitRuns cs := by
  simp [digitRuns, digitRunsAux, h]

theorem countSegs_le_runs_aux : ∀ (n : Nat) (s : List Char), s.length ≤ n →
    (splitOnChar ',' s).countP (fun seg => seg.any Char.isDigit) ≤ (digitRuns s).length := by
  intro n
  induction n with
  | zero =>
    intro s hs
    have h0 : s = [] := List.length_eq_zero.mp (Nat.le_zero.mp hs)
    subst h0
    simp [splitOnChar, digitRuns, digitRunsAux, List.countP_cons]
  | succ n ih =>
    intro s hs
    cases s with
    | nil => simp [splitOnChar, digitRuns, digitRunsAux, List.countP_cons]
    | cons c cs =>
      have hlen : cs.length ≤ n := by simp at hs; omega
      by_cases hc : c = ','
      · subst hc
        rw [show splitOnChar ',' (',' :: cs) = [] :: splitOnChar ',' cs by simp [splitOnChar]]
        rw [List.countP_cons, digitRuns_cons_not ',' cs (by decide)]
        have h1 := ih cs hlen
        simp only [List.any_nil, Bool.false_eq_true, if_false]
        omega
      · by_cases hd : c.isDigit = true
        · have hna : ',' ∉ c :: cs.takeWhile Char.isDigit := by
            intro hm
            rcases List.mem_cons.mp hm with h1 | h1
            · exact hc h1.symm
            · have := List.mem_takeWhile_imp h1
              simp at this
          obtain ⟨u, vs, hsp, hall⟩ := splitOnChar_append_left ','
            (c :: cs.takeWhile Char.isDigit) (cs.dropWhile Char.isDigit) hna
          have hL : splitOnChar ',' (c :: cs) =
              ((c :: cs.takeWhile Char.isDigit) ++ u) :: vs := by
            conv_lhs =>
              rw [show c :: cs =
                (c :: cs.takeWhile Char.isDigit) ++ cs.dropWhile Char.isDigit by
                  simp [List.takeWhile_append_dropWhile]]
            exact hall
          rw [hL, digitRuns_cons_digit c cs hd]
          have hlen2 : (cs.dropWhile Char.isDigit).length ≤ n :=
            le_trans (List.Sublist.length_le (List.dropWhile_sublist _)) hlen
          have h2 := ih _ hlen2
          rw [hsp, List.countP_cons] at h2
          have h3 : (splitOnChar ',' (cs.dropWhile Char.isDigit)).countP
              (fun seg => seg.any Char.isDigit) =
              List.countP (fun seg => seg.any Char.isDigit) vs +
                if u.any Char.isDigit = true then 1 else 0 := by
            rw [hsp, List.countP_cons]
          rw [List.countP_cons, List.length_cons]
          split at h2 <;> split <;> omega
        · have hd2 : c.isDigit = false := by simpa using hd
          obtain ⟨u, vs, hsp, hall⟩ := splitOnChar_append_left ',' [c] cs
            (by intro hm; exact hc (List.mem_singleton.mp hm).symm)
          have hL : splitOnChar ',' (c :: cs) = (c :: u) :: vs := by
            have := hall
            simpa using this
          rw [hL, digitRuns_cons_not c cs hd2]
          have h2 := ih cs hlen
          rw [hsp, List.countP_cons] at h2
          rw [List.countP_cons]
          have hany : (c :: u).any Char.isDigit = u.any Char.isDigit := by
            simp [List.any_cons, hd2]
          rw [hany]
          exact h2

theorem mergedTokens_le_countSegs (ss : List (List Char)) :
    ((ss.map (fun seg => seg.filter isNumericChar)).filterMap parseU32).length ≤
      ss.countP (fun seg => seg.any Char.isDigit) := by
  induction ss with
  | nil => simp
  | cons seg ss ih =>
    simp only [List.map_cons, List.filterMap_cons, List.countP_cons]
    cases hp : parseU32 (seg.filter isNumericChar) with
    | none =>
      refine le_trans ih ?_
      split <;> omega
    | some v =>
      have hpn : ∃ m, parseNatFrom (seg.filter isNumericChar) = some m := by
        unfold parseU32 at hp
        cases hq : parseNatFrom (seg.filter isNumericChar) with
        | none => rw [hq] at hp; simp at hp
        | some m => exact ⟨m, rfl⟩
      obtain ⟨m, hm⟩ := hpn
      obtain ⟨x, hx, hxd⟩ := parseNatFrom_digit_mem _ _ hm
      have hany : seg.any Char.isDigit = true :=
        List.any_eq_true.mpr ⟨x, (List.mem_filter.mp hx).1, hxd⟩
      rw [hany, List.length_cons]
      simp only [if_true]
      omega

theorem pasvNumbers_le_runs (s : List Char) :
    (pasvNumbers s).length ≤ (digitRuns s).length := by
  rw [pasvNumbers_eq_merged]
  exact le_trans (mergedTokens_le_countSegs _) (countSegs_le_runs_aux s.length s le_rfl)

/-- C1: the claim says the multi-line reader only stops at a line whose
first three digits match AND whose fourth character is not a dash, so
the stream consisting of the three lines 211-line one, 211-not the end,
211 End would be consumed entirely into one reply.  The embedded source
loop stops at any line starting with the same three digits: on that
stream it terminates at the lookalike line 211-not the end, produces a
reply whose message omits the true terminator line, and leaves the line
211 End unconsumed in the control stream. -/
theorem c1_multiline_lookalike_stops_scan :
    parse_response ("211-line one\r\n211-not the end\r\n211 End\r\n".data) =
      .ok ⟨211, "-line one\r\n211-not the end\r\n"⟩ ("211 End\r\n".data) := by decide

/-- C2: the claim says that when the server answers USER with code 230
the login returns Ok without ever writing a PASS line.  The embedded
source sends PASS unconditionally: with USER answered by 230 and the
following reply 503, login writes the PASS line and returns a
LoginError instead of Ok. -/
theorem c2_login_sends_pass_after_230 :
    FtpClient.login "demo" "password" ⟨[⟨230, "Logged in."⟩, ⟨503, "Bad sequence."⟩], [], []⟩ =
      (.error (.LoginError "Invalid username/password combination: 503"),
       ⟨[], [], [.cmdWrite "USER demo\r\n", .cmdWrite "PASS password\r\n"]⟩) := by decide

/-- C6: the claim says every input line shorter than 5 characters yields
a ResponseError and the parser never panics, including on non-ASCII
lines.  The line aa followed by the euro sign and a newline has 4
characters but 6 UTF-8 bytes: it passes the length guard (which counts
bytes) and the slice of the first 3 bytes then falls inside the euro
sign, which in the source panics. -/
theorem c6_parse_response_panics_on_multibyte :
    ("aa€\n".data.length < 5) ∧ parse_response ("aa€\n".data) = .panic :=
  ⟨by decide, by decide⟩

/-- C7 (counterexample): the claim says the numeric tokens are exactly
the maximal runs of decimal digits regardless of surrounding non-comma
text.  On the message 1 2,3,4,5,6,7 the maximal runs are 1,2,3,4,5,6,7
and the first six give the address 1.2.3.4:1286, but the embedded
decoder merges the space-separated runs 1 and 2 into the single token
12 and yields 12.3.4.5:1543. -/
theorem c7_tokens_not_maximal_runs_counterexample :
    addressOfTokens (specTokens ("1 2,3,4,5,6,7".data)) = some "1.2.3.4:1286" ∧
    extract_pasv_address ("1 2,3,4,5,6,7".data) = .ok "12.3.4.5:1543" ∧
    ("12.3.4.5:1543" : String) ≠ "1.2.3.4:1286" :=
  ⟨by decide, by decide, by decide⟩

/-- C7 (amended): for every message, the numeric tokens of the decoder
are obtained by splitting the original message at commas and, within
each comma-delimited segment, concatenating all the Unicode numeric
characters it contains; a segment is kept as a token exactly when that
concatenation parses as u32 (ASCII decimal digits only, value below 2
to the 32).  Digit runs separated by non-comma text therefore merge
into one token, and a segment corrupted by a non-ASCII numeric
character is dropped whole; the decoder builds the address from the
first six tokens, in order. -/
theorem c7_tokens_amended (s : List Char) : pasvNumbers s = mergedCommaTokens s :=
  pasvNumbers_eq_merged s

/-- C8: for every message text containing fewer than six maximal runs of
decimal digits, the passive-address decoder fails with a ResponseError
and produces no address. -/
theorem c8_fewer_than_six_runs_errors (s : List Char)
    (h : (digitRuns s).length < 6) :
    extract_pasv_address s =
      .error (.ResponseError ("Invalid PASV response from server: " ++ String.mk s)) := by
  have hle := pasvNumbers_le_runs s
  simp only [extract_pasv_address]
  rw [if_pos (by omega)]

/-- Witness for C8 at the concrete message 1,2,3, which has three digit
runs. -/
theorem c8_fewer_than_six_runs_errors_witness :
    ((digitRuns ("1,2,3".data)).length < 6) ∧
      extract_pasv_address ("1,2,3".data) =
        .error (.ResponseError ("Invalid PASV response from server: " ++
          String.mk ("1,2,3".data))) :=
  ⟨by decide, c8_fewer_than_six_runs_errors _ (by decide)⟩

theorem extract_pasvReply :
    extract_pasv_address (" Entering Passive Mode (127,0,0,1,4,1).\r\n".data) =
      .ok "127.0.0.1:1025" := by decide

/-- C9: in rename, the RNTO command is never written unless the RNFR
reply code was 350; any other code stops the operation with a
CommandError, with only the RNFR line in the write trace. -/
theorem c9_rnto_only_after_350 (f t m : String) (c : Nat) (rest : List Response)
    (dl : List (Option String)) (h : c ≠ 350) :
    FtpClient.rename f t ⟨⟨c, m⟩ :: rest, dl, []⟩ =
      (.error (.CommandError ("Could not rename file: " ++ natStr c)),
       ⟨rest, dl, [.cmdWrite ("RNFR " ++ f ++ "\r\n")]⟩) := by
  simp [FtpClient.rename, FtpClient.write_cmd, FtpClient.read_reply, FtpClient.logAction,
    FILE_ACTION_PENDING, h]

/-- Witness for C9 at the reply code 530. -/
theorem c9_rnto_only_after_350_witness :
    ((530 : Nat) ≠ 350) ∧
      FtpClient.rename "old.txt" "new.txt" ⟨[⟨530, "Denied."⟩], [], []⟩ =
        (.error (.CommandError ("Could not rename file: " ++ natStr 530)),
         ⟨[], [], [.cmdWrite ("RNFR " ++ "old.txt" ++ "\r\n")]⟩) :=
  ⟨by decide, c9_rnto_only_after_350 "old.txt" "new.txt" "Denied." 530 [] [] (by decide)⟩

theorem pasv_transferScript (c : Nat) (m : String) (k : Nat) (mf : String)
    (dl : List (Option String)) :
    FtpClient.pasv (FtpClient.transferScript c m k mf dl) =
      (.ok "127.0.0.1:1025", ⟨[⟨c, m⟩, ⟨k, mf⟩], dl, [.cmdWrite "PASV\r\n"]⟩) := by
  simp only [FtpClient.pasv, FtpClient.write_cmd, FtpClient.read_reply, FtpClient.logAction,
    FtpClient.transferScript, FtpClient.pasvReply]
  norm_num
  rw [show extract_pasv_address (String.data " Entering Passive Mode (127,0,0,1,4,1).\r\n") =
    .ok "127.0.0.1:1025" from by decide]
  norm_num [PASSIVE_MODE, ALREADY_OPEN]
  rfl

/-- C5: for every transfer operation, after the data phase a final reply
is read on the control channel; with the transfer verb accepted (code
150), the operation returns Ok exactly when the final reply code is
226, any other final code yields ConnectionError, and in every case the
data bytes were already copied (dataCopy is in the trace). -/
theorem c5_final_reply_226_required (f dir m mf : String) (k : Nat)
    (dl : List (Option String)) :
    ((FtpClient.get f (FtpClient.transferScript 150 m k mf dl)).1 =
      (if k = 226 then .ok () else .error (.ConnectionError "Error closing connection"))) ∧
    FtpClient.FtpAction.dataCopy ∈
      (FtpClient.get f (FtpClient.transferScript 150 m k mf dl)).2.trace ∧
    ((FtpClient.put f (FtpClient.transferScript 150 m k mf dl)).1 =
      (if k = 226 then .ok () else .error (.ConnectionError "Error closing connection"))) ∧
    FtpClient.FtpAction.dataCopy ∈
      (FtpClient.put f (FtpClient.transferScript 150 m k mf dl)).2.trace ∧
    ((FtpClient.put_unique (FtpClient.transferScript 150 m k mf dl)).1 =
      (if k = 226 then .ok m else .error (.ConnectionError "Error closing connection"))) ∧
    FtpClient.FtpAction.dataCopy ∈
      (FtpClient.put_unique (FtpClient.transferScript 150 m k mf dl)).2.trace ∧
    ((FtpClient.append f (FtpClient.transferScript 150 m k mf dl)).1 =
      (if k = 226 then .ok () else .error (.ConnectionError "Error closing connection"))) ∧
    FtpClient.FtpAction.dataCopy ∈
      (FtpClient.append f (FtpClient.transferScript 150 m k mf dl)).2.trace ∧
    ((FtpClient.list dir (FtpClient.transferScript 150 m k mf dl)).1 =
      (if k = 226 then .ok (dl.filterMap id)
       else .error (.ConnectionError "Error closing connection"))) ∧
    FtpClient.FtpAction.dataCopy ∈
      (FtpClient.list dir (FtpClient.transferScript 150 m k mf dl)).2.trace ∧
    ((FtpClient.name_list dir (FtpClient.transferScript 150 m k mf dl)).1 =
      (if k = 226 then .ok (dl.filterMap id)
       else .error (.ConnectionError "Error closing connection"))) ∧
    FtpClient.FtpAction.dataCopy ∈
      (FtpClient.name_list dir (FtpClient.transferScript 150 m k mf dl)).2.trace := by
  refine ⟨?_, ?_, ?_, ?_, ?_, ?_, ?_, ?_, ?_, ?_, ?_, ?_⟩ <;>
    (by_cases hk : k = 226 <;>
      simp [FtpClient.get, FtpClient.put, FtpClient.put_unique, FtpClient.append,
        FtpClient.list, FtpClient.name_list, FtpClient.list_cmd, FtpClient.store_cmd,
        pasv_transferScript, FtpClient.write_cmd, FtpClient.read_reply, FtpClient.logAction,
        FILE_OK, ALREADY_OPEN, COMMAND_OK, CLOSING_DATA_CONNECTION, hk])

/-- C10: for every data-connection content, the lines whose read or
decode failed are silently dropped: list and name_list still return Ok
with exactly the successfully decoded lines. -/
theorem c10_list_drops_bad_lines (dir m mf : String) (dl : List (Option String)) :
    (FtpClient.list dir (FtpClient.transferScript 150 m 226 mf dl)).1 =
      .ok (dl.filterMap id) ∧
    (FtpClient.name_list dir (FtpClient.transferScript 150 m 226 mf dl)).1 =
      .ok (dl.filterMap id) := by
  constructor <;>
    simp [FtpClient.list, FtpClient.name_list, FtpClient.list_cmd, pasv_transferScript,
      FtpClient.write_cmd, FtpClient.read_reply, FtpClient.logAction,
      COMMAND_OK, ALREADY_OPEN, FILE_OK, CLOSING_DATA_CONNECTION]

/-- C4 (counterexample): the claim says list and name_list succeed only
on immediate code 150 or 125.  With the LIST verb answered by code 200
the embedded operation succeeds and returns Ok instead of a
CommandError. -/
theorem c4_list_accepts_200_counterexample :
    (FtpClient.list "files" (FtpClient.transferScript 200 "Command okay." 226 "Done." [])).1 =
      .ok [] := by decide

/-- C4 (amended): the immediate reply code accepted after a transfer
verb depends on the operation: get requires 150 or 125; put, put_unique
and append require exactly 150; list and name_list accept 200, 125 or
150.  Any other immediate code yields a CommandError before any data
is moved (no dataCopy in the trace), and an accepted code leads to the
data being moved. -/
theorem c4_transfer_gate_amended (f dir m mf : String) (c k : Nat)
    (dl : List (Option String)) :
    ((c ≠ 150 ∧ c ≠ 125 →
        (FtpClient.get f (FtpClient.transferScript c m k mf dl)).1 =
          .error (.CommandError "Could not process file retrieve") ∧
        FtpClient.FtpAction.dataCopy ∉
          (FtpClient.get f (FtpClient.transferScript c m k mf dl)).2.trace) ∧
      (c = 150 ∨ c = 125 →
        FtpClient.FtpAction.dataCopy ∈
          (FtpClient.get f (FtpClient.transferScript c m k mf dl)).2.trace)) ∧
    ((c ≠ 150 →
        (FtpClient.put f (FtpClient.transferScript c m k mf dl)).1 =
          .error (.CommandError "Could not process file STOR") ∧
        FtpClient.FtpAction.dataCopy ∉
          (FtpClient.put f (FtpClient.transferScript c m k mf dl)).2.trace) ∧
      (c = 150 →
        FtpClient.FtpAction.dataCopy ∈
          (FtpClient.put f (FtpClient.transferScript c m k mf dl)).2.trace)) ∧
    ((c ≠ 150 →
        (FtpClient.put_unique (FtpClient.transferScript c m k mf dl)).1 =
          .error (.CommandError "Could not process file STOR") ∧
        FtpClient.FtpAction.dataCopy ∉
          (FtpClient.put_unique (FtpClient.transferScript c m k mf dl)).2.trace) ∧
      (c = 150 →
        FtpClient.FtpAction.dataCopy ∈
          (FtpClient.put_unique (FtpClient.transferScript c m k mf dl)).2.trace)) ∧
    ((c ≠ 150 →
        (FtpClient.append f (FtpClient.transferScript c m k mf dl)).1 =
          .error (.CommandError "Could not process file STOR") ∧
        FtpClient.FtpAction.dataCopy ∉
          (FtpClient.append f (FtpClient.transferScript c m k mf dl)).2.trace) ∧
      (c = 150 →
        FtpClient.FtpAction.dataCopy ∈
          (FtpClient.append f (FtpClient.transferScript c m k mf dl)).2.trace)) ∧
    ((c ≠ 200 ∧ c ≠ 125 ∧ c ≠ 150 →
        (FtpClient.list dir (FtpClient.transferScript c m k mf dl)).1 =
          .error (.CommandError m) ∧
        FtpClient.FtpAction.dataCopy ∉
          (FtpClient.list dir (FtpClient.transferScript c m k mf dl)).2.trace) ∧
      (c = 200 ∨ c = 125 ∨ c = 150 →
        FtpClient.FtpAction.dataCopy ∈
          (FtpClient.list dir (FtpClient.transferScript c m k mf dl)).2.trace)) ∧
    ((c ≠ 200 ∧ c ≠ 125 ∧ c ≠ 150 →
        (FtpClient.name_list dir (FtpClient.transferScript c m k mf dl)).1 =
          .error (.CommandError m) ∧
        FtpClient.FtpAction.dataCopy ∉
          (FtpClient.name_list dir (FtpClient.transferScript c m k mf dl)).2.trace) ∧
      (c = 200 ∨ c = 125 ∨ c = 150 →
        FtpClient.FtpAction.dataCopy ∈
          (FtpClient.name_list dir (FtpClient.transferScript c m k mf dl)).2.trace)) := by
  refine ⟨⟨fun hga => ?_, fun hgb => ?_⟩, ⟨fun hpa => ?_, fun hpb => ?_⟩,
    ⟨fun hua => ?_, fun hub => ?_⟩, ⟨fun haa => ?_, fun hab => ?_⟩,
    ⟨fun hla => ?_, fun hlb => ?_⟩, ⟨fun hna => ?_, fun hnb => ?_⟩⟩
  · obtain ⟨h1, h2⟩ := hga
    simp [FtpClient.get, FtpClient.put, FtpClient.put_unique, FtpClient.append,
      FtpClient.list, FtpClient.name_list, FtpClient.list_cmd, FtpClient.store_cmd,
      pasv_transferScript, FtpClient.write_cmd, FtpClient.read_reply, FtpClient.logAction,
      FILE_OK, ALREADY_OPEN, COMMAND_OK, CLOSING_DATA_CONNECTION, h1, h2]
  · rcases hgb with h | h <;> subst h <;> by_cases hk : k = 226 <;> simp [FtpClient.get, FtpClient.put, FtpClient.put_unique, FtpClient.append,
      FtpClient.list, FtpClient.name_list, FtpClient.list_cmd, FtpClient.store_cmd,
      pasv_transferScript, FtpClient.write_cmd, FtpClient.read_reply, FtpClient.logAction,
      FILE_OK, ALREADY_OPEN, COMMAND_OK, CLOSING_DATA_CONNECTION, hk]
  · simp [FtpClient.get, FtpClient.put, FtpClient.put_unique, FtpClient.append,
      FtpClient.list, FtpClient.name_list, FtpClient.list_cmd, FtpClient.store_cmd,
      pasv_transferScript, FtpClient.write_cmd, FtpClient.read_reply, FtpClient.logAction,
      FILE_OK, ALREADY_OPEN, COMMAND_OK, CLOSING_DATA_CONNECTION, hpa]
  · subst hpb
    by_cases hk : k = 226 <;> simp [FtpClient.get, FtpClient.put, FtpClient.put_unique, FtpClient.append,
      FtpClient.list, FtpClient.name_list, FtpClient.list_cmd, FtpClient.store_cmd,
      pasv_transferScript, FtpClient.write_cmd, FtpClient.read_reply, FtpClient.logAction,
      FILE_OK, ALREADY_OPEN, COMMAND_OK, CLOSING_DATA_CONNECTION, hk]
  · simp [FtpClient.get, FtpClient.put, FtpClient.put_unique, FtpClient.append,
      FtpClient.list, FtpClient.name_list, FtpClient.list_cmd, FtpClient.store_cmd,
      pasv_transferScript, FtpClient.write_cmd, FtpClient.read_reply, FtpClient.logAction,
      FILE_OK, ALREADY_OPEN, COMMAND_OK, CLOSING_DATA_CONNECTION, hua]
  · subst hub
    by_cases hk : k = 226 <;> simp [FtpClient.get, FtpClient.put, FtpClient.put_unique, FtpClient.append,
      FtpClient.list, FtpClient.name_list, FtpClient.list_cmd, FtpClient.store_cmd,
      pasv_transferScript, FtpClient.write_cmd, FtpClient.read_reply, FtpClient.logAction,
      FILE_OK, ALREADY_OPEN, COMMAND_OK, CLOSING_DATA_CONNECTION, hk]
  · simp [FtpClient.get, FtpClient.put, FtpClient.put_unique, FtpClient.append,
      FtpClient.list, FtpClient.name_list, FtpClient.list_cmd, FtpClient.store_cmd,
      pasv_transferScript, FtpClient.write_cmd, FtpClient.read_reply, FtpClient.logAction,
      FILE_OK, ALREADY_OPEN, COMMAND_OK, CLOSING_DATA_CONNECTION, haa]
  · subst hab
    by_cases hk : k = 226 <;> simp [FtpClient.get, FtpClient.put, FtpClient.put_unique, FtpClient.append,
      FtpClient.list, FtpClient.name_list, FtpClient.list_cmd, FtpClient.store_cmd,
      pasv_transferScript, FtpClient.write_cmd, FtpClient.read_reply, FtpClient.logAction,
      FILE_OK, ALREADY_OPEN, COMMAND_OK, CLOSING_DATA_CONNECTION, hk]
  · obtain ⟨h1, h2, h3⟩ := hla
    simp [FtpClient.get, FtpClient.put, FtpClient.put_unique, FtpClient.append,
      FtpClient.list, FtpClient.name_list, FtpClient.list_cmd, FtpClient.store_cmd,
      pasv_transferScript, FtpClient.write_cmd, FtpClient.read_reply, FtpClient.logAction,
      FILE_OK, ALREADY_OPEN, COMMAND_OK, CLOSING_DATA_CONNECTION, h1, h2, h3]
  · rcases hlb with h | h | h <;> subst h <;> by_cases hk : k = 226 <;> simp [FtpClient.get, FtpClient.put, FtpClient.put_unique, FtpClient.append,
      FtpClient.list, FtpClient.name_list, FtpClient.list_cmd, FtpClient.store_cmd,
      pasv_transferScript, FtpClient.write_cmd, FtpClient.read_reply, FtpClient.logAction,
      FILE_OK, ALREADY_OPEN, COMMAND_OK, CLOSING_DATA_CONNECTION, hk]
  · obtain ⟨h1, h2, h3⟩ := hna
    simp [FtpClient.get, FtpClient.put, FtpClient.put_unique, FtpClient.append,
      FtpClient.list, FtpClient.name_list, FtpClient.list_cmd, FtpClient.store_cmd,
      pasv_transferScript, FtpClient.write_cmd, FtpClient.read_reply, FtpClient.logAction,
      FILE_OK, ALREADY_OPEN, COMMAND_OK, CLOSING_DATA_CONNECTION, h1, h2, h3]
  · rcases hnb with h | h | h <;> subst h <;> by_cases hk : k = 226 <;> simp [FtpClient.get, FtpClient.put, FtpClient.put_unique, FtpClient.append,
      FtpClient.list, FtpClient.name_list, FtpClient.list_cmd, FtpClient.store_cmd,
      pasv_transferScript, FtpClient.write_cmd, FtpClient.read_reply, FtpClient.logAction,
      FILE_OK, ALREADY_OPEN, COMMAND_OK, CLOSING_DATA_CONNECTION, hk]

/-- Witness for C4 at the rejected code 500 and the accepted code 125. -/
theorem c4_transfer_gate_amended_witness :
    (FtpClient.get "f" (FtpClient.transferScript 500 "m" 226 "mf" [])).1 =
      .error (.CommandError "Could not process file retrieve") ∧
    FtpClient.FtpAction.dataCopy ∈
      (FtpClient.get "f" (FtpClient.transferScript 125 "m" 226 "mf" [])).2.trace ∧
    (FtpClient.put "f" (FtpClient.transferScript 500 "m" 226 "mf" [])).1 =
      .error (.CommandError "Could not process file STOR") ∧
    (FtpClient.list "d" (FtpClient.transferScript 500 "m" 226 "mf" [])).1 =
      .error (.CommandError "m") :=
  ⟨((c4_transfer_gate_amended "f" "d" "m" "mf" 500 226 []).1.1 (by decide)).1,
   (c4_transfer_gate_amended "f" "d" "m" "mf" 125 226 []).1.2 (by decide),
   ((c4_transfer_gate_amended "f" "d" "m" "mf" 500 226 []).2.1.1 (by decide)).1,
   ((c4_transfer_gate_amended "f" "d" "m" "mf" 500 226 []).2.2.2.2.1.1 (by decide)).1⟩

theorem utf8Len_cons (c : Char) (l : List Char) :
    utf8Len (c :: l) = c.utf8Size + utf8Len l := by
  simp [utf8Len]

theorem utf8Len_append (a b : List Char) :
    utf8Len (a ++ b) = utf8Len a + utf8Len b := by
  simp [utf8Len]

theorem not_mem_decimal (c : Char) (hc : c.isDigit = false) (n : Nat) :
    c ∉ decimal n := by
  intro h
  have h2 := decimal_all_digit n c h
  rw [hc] at h2
  exact absurd h2 (by simp)

theorem readLine_cons_ne (c : Char) (s : List Char) (h : c ≠ '\n') :
    readLine (c :: s) = (c :: (readLine s).1, (readLine s).2) := by
  simp [readLine, h]

theorem readLine_append_no_newline (u v : List Char) (h : '\n' ∉ u) :
    readLine (u ++ v) = (u ++ (readLine v).1, (readLine v).2) := by
  induction u with
  | nil => simp
  | cons c cs ih =>
    have hc : c ≠ '\n' := fun hc => h (by simp [hc])
    have h' : '\n' ∉ cs := fun hm => h (List.mem_cons_of_mem _ hm)
    simp [readLine, hc, ih h']

theorem readLine_pasvMessageBody (a b c d p1 p2 : Nat) :
    readLine (pasvMessageBody a b c d p1 p2) = (pasvMessageBody a b c d p1 p2, []) := by
  simp only [pasvMessageBody, pasvDigitsPart, List.append_assoc]
  rw [readLine_append_no_newline pasvTextPrefix _ (by decide),
    readLine_append_no_newline _ _ (not_mem_decimal '\n' (by decide) a),
    readLine_append_no_newline [','] _ (by decide),
    readLine_append_no_newline _ _ (not_mem_decimal '\n' (by decide) b),
    readLine_append_no_newline [','] _ (by decide),
    readLine_append_no_newline _ _ (not_mem_decimal '\n' (by decide) c),
    readLine_append_no_newline [','] _ (by decide),
    readLine_append_no_newline _ _ (not_mem_decimal '\n' (by decide) d),
    readLine_append_no_newline [','] _ (by decide),
    readLine_append_no_newline _ _ (not_mem_decimal '\n' (by decide) p1),
    readLine_append_no_newline [','] _ (by decide),
    readLine_append_no_newline _ _ (not_mem_decimal '\n' (by decide) p2),
    show readLine [')', '.', '\r', '\n'] = ([')', '.', '\r', '\n'], []) from by decide]

theorem readLine_pasvReplyLine (a b c d p1 p2 : Nat) :
    readLine (pasvReplyLine a b c d p1 p2) = (pasvReplyLine a b c d p1 p2, []) := by
  show readLine ('2' :: '2' :: '7' :: pasvMessageBody a b c d p1 p2) = _
  rw [readLine_cons_ne '2' _ (by decide), readLine_cons_ne '2' _ (by decide),
    readLine_cons_ne '7' _ (by decide), readLine_pasvMessageBody]
  simp [pasvReplyLine]

theorem pasvNumbers_pasvMessageBody (a b c d p1 p2 : Nat)
    (ha : a ≤ 255) (hb : b ≤ 255) (hc : c ≤ 255) (hd : d ≤ 255)
    (hp1 : p1 ≤ 255) (hp2 : p2 ≤ 255) :
    pasvNumbers (pasvMessageBody a b c d p1 p2) = [a, b, c, d, p1, p2] := by
  have hpfx : pasvTextPrefix.filter (fun ch => ch = ',' || isNumericChar ch) = [] := by decide
  have hcomma : [','].filter (fun ch => ch = ',' || isNumericChar ch) = [','] := by decide
  have htail : [')', '.', '\r', '\n'].filter (fun ch => ch = ',' || isNumericChar ch) = [] :=
    by decide
  simp only [pasvNumbers, pasvMessageBody, pasvDigitsPart, List.filter_append,
    hpfx, hcomma, htail, filter_decimal_keep]
  simp only [List.append_assoc, List.cons_append, List.nil_append, List.append_nil]
  rw [splitOnChar_append_sep ',' _ _ (not_mem_decimal ',' (by decide) a),
    splitOnChar_append_sep ',' _ _ (not_mem_decimal ',' (by decide) b),
    splitOnChar_append_sep ',' _ _ (not_mem_decimal ',' (by decide) c),
    splitOnChar_append_sep ',' _ _ (not_mem_decimal ',' (by decide) d),
    splitOnChar_append_sep ',' _ _ (not_mem_decimal ',' (by decide) p1),
    splitOnChar_not_mem ',' _ (not_mem_decimal ',' (by decide) p2)]
  simp only [List.map_cons, List.map_nil,
    trimChars_all_digit _ (decimal_all_digit a), trimChars_all_digit _ (decimal_all_digit b),
    trimChars_all_digit _ (decimal_all_digit c), trimChars_all_digit _ (decimal_all_digit d),
    trimChars_all_digit _ (decimal_all_digit p1), trimChars_all_digit _ (decimal_all_digit p2)]
  simp [List.filterMap_cons, parseU32_decimal a (by omega), parseU32_decimal b (by omega),
    parseU32_decimal c (by omega), parseU32_decimal d (by omega),
    parseU32_decimal p1 (by omega), parseU32_decimal p2 (by omega)]

theorem extract_of_numbers (s : List Char) (n0 n1 n2 n3 n4 n5 : Nat) (rest : List Nat)
    (h : pasvNumbers s = n0 :: n1 :: n2 :: n3 :: n4 :: n5 :: rest) :
    extract_pasv_address s =
      .ok (natStr n0 ++ "." ++ natStr n1 ++ "." ++ natStr n2 ++ "." ++ natStr n3 ++ ":" ++
        natStr ((n4 * 256 + n5) % 4294967296)) := by
  simp only [extract_pasv_address, h]
  rw [if_neg (by simp only [List.length_cons]; omega)]

/-- C3: decoding a PASV reply of the form
227 Entering Passive Mode (a,b,c,d,p1,p2). through the client (the
Response Parser yields code 227 and the message after the code, and the
passive-address decoder decodes that message) gives exactly the address
a.b.c.d with port p1 times 256 plus p2, for all octet and port-byte
values from 0 to 255. -/
theorem c3_pasv_roundtrip (a b c d p1 p2 : Nat)
    (ha : a ≤ 255) (hb : b ≤ 255) (hc : c ≤ 255) (hd : d ≤ 255)
    (hp1 : p1 ≤ 255) (hp2 : p2 ≤ 255) :
    parse_response (pasvReplyLine a b c d p1 p2) =
      .ok ⟨227, String.mk (pasvMessageBody a b c d p1 p2)⟩ [] ∧
    extract_pasv_address (pasvMessageBody a b c d p1 p2) =
      .ok (pasvAddr a b c d (p1 * 256 + p2)) := by
  constructor
  · have h5 : ¬ utf8Len (pasvReplyLine a b c d p1 p2) < 5 := by
      simp only [pasvReplyLine, pasvMessageBody, utf8Len_cons, utf8Len_append]
      rw [show utf8Len pasvTextPrefix = 24 from by decide,
        show ('2').utf8Size = 1 from by decide, show ('7').utf8Size = 1 from by decide]
      omega
    have hT3 : byteTake (pasvReplyLine a b c d p1 p2) 3 = some ['2', '2', '7'] := by
      show byteTake (['2', '2', '7'] ++ pasvMessageBody a b c d p1 p2) 3 = _
      exact byteTake_append _ _ _ _ (by decide)
    have hT4 : byteTake (pasvReplyLine a b c d p1 p2) 4 = some ['2', '2', '7', ' '] := by
      show byteTake (('2' :: '2' :: '7' :: pasvTextPrefix) ++
        pasvDigitsPart a b c d p1 p2) 4 = _
      exact byteTake_append _ _ _ _ (by decide)
    have hD3 : byteDrop (pasvReplyLine a b c d p1 p2) 3 =
        some (pasvMessageBody a b c d p1 p2) := by
      show byteDrop (['2', '2', '7'] ++ pasvMessageBody a b c d p1 p2) 3 = _
      have h0 := byteDrop_append ['2', '2', '7'] (pasvMessageBody a b c d p1 p2) [] 3 (by decide)
      simpa using h0
    simp only [parse_response, readLine_pasvReplyLine]
    rw [if_neg h5]
    rw [hT3]
    simp only []
    rw [show parseUsize ['2', '2', '7'] = some 227 from by decide]
    simp only []
    rw [hT4]
    simp only []
    rw [if_neg (show ¬ (['2', '2', '7', ' '].contains '-') = true from by decide)]
    rw [hD3]
  · have hnum := pasvNumbers_pasvMessageBody a b c d p1 p2 ha hb hc hd hp1 hp2
    rw [extract_of_numbers _ a b c d p1 p2 [] hnum, Nat.mod_eq_of_lt (by omega)]
    simp [pasvAddr]

/-- Witness for C3 at the boundary value 255 for every octet and port
byte. -/
theorem c3_pasv_roundtrip_witness :
    ((255 : Nat) ≤ 255) ∧
    (parse_response (pasvReplyLine 255 255 255 255 255 255) =
      .ok ⟨227, String.mk (pasvMessageBody 255 255 255 255 255 255)⟩ [] ∧
    extract_pasv_address (pasvMessageBody 255 255 255 255 255 255) =
      .ok (pasvAddr 255 255 255 255 (255 * 256 + 255))) :=
  ⟨by decide, c3_pasv_roundtrip 255 255 255 255 255 255 (by decide) (by decide) (by decide)
    (by decide) (by decide) (by decide)⟩
